import Mathlib

/-!
# Verification of `go-git-backup` (`lib/backup.go`)

A shallow embedding of the repository's single source file `lib/backup.go`
(package `gitbackup`) and proofs about it.

Modelling conventions:
* Go's `map[string]string` target configuration is an association list;
  lookup of a missing key yields the zero value `""`, as in Go.
* Decoded JSON documents are values of the inductive type `Json`; the
  listing functions are embedded from the point where `json.Unmarshal`
  has produced a decoded value, with each unmarshalling step of the Go
  code modelled as a shape check on the decoded value (a failing check
  is exactly a failing `json.Unmarshal` in the Go code).
* `strings.Replace(s, old, new, 1)` is `goReplace1`.
* `filepath.Join` is `filepathJoin` (join of the non-empty components
  followed by Go's lexical `Clean`).
* The filesystem consulted by `os.Stat` is a function from paths to an
  abstract stat outcome (`StatResult`), and `backupRepository` returns
  the external `git` process invocation it performs.
-/

set_option autoImplicit false

namespace GitBackup

/-- A decoded JSON document (the result of Go's `json.Unmarshal`). -/
inductive Json where
  | null : Json
  | bool (b : Bool) : Json
  | num (n : Int) : Json
  | str (s : String) : Json
  | arr (elems : List Json) : Json
  | obj (fields : List (String × Json)) : Json

/-- A decoded JSON object, i.e. Go's `map[string]json.RawMessage` /
`map[string]interface{}`. -/
abbrev JsonObj := List (String × Json)

/-- Go struct `repository` from `lib/backup.go`: the uniform descriptor
produced by the listing functions. -/
structure repository where
  name : String
  cloneURL : String
deriving DecidableEq

/-- A backup target: Go's `map[string]string`. -/
def Target := List (String × String)

/-- Go map indexing `target["k"]`: first binding, or the zero value `""`
when the key is absent. -/
def Target.get (t : Target) (k : String) : String :=
  (List.lookup k t).getD ""

/-- Field access on a decoded JSON object (`repo["k"]`): `none` models a
`nil` entry for a missing key. -/
def jLookup (o : JsonObj) (k : String) : Option Json :=
  (List.lookup k o)

/-- Is the optional JSON value a string? -/
def isStrVal : Option Json → Bool
  | some (Json.str _) => true
  | _ => false

/-- Go's dropped-ok type assertion `v.(string)` on a possibly-nil
`interface{}` value: the string if it is one, the zero value `""`
otherwise (missing key or non-string value). -/
def asGoString : Option Json → String
  | some (Json.str s) => s
  | _ => ""

/-! ## String helpers mirroring the Go standard library -/

/-- Core of `strings.Replace(s, old, new, 1)` on character lists: replace
the first occurrence of `pat` in the list by `repl`; no occurrence leaves
the list unchanged.  An empty `pat` matches at the start, as in Go. -/
def replaceOnceAux (pat repl : List Char) : List Char → List Char
  | [] => if pat = [] then repl else []
  | c :: cs =>
    if pat.isPrefixOf (c :: cs) then repl ++ (c :: cs).drop pat.length
    else c :: replaceOnceAux pat repl cs

/-- Go's `strings.Replace(s, old, new, 1)`. -/
def goReplace1 (s pat repl : String) : String :=
  String.mk (replaceOnceAux pat.data repl.data s.data)

/-- Does `sub` occur in the character list? -/
def hasSubstrAux (sub : List Char) : List Char → Bool
  | [] => sub.isEmpty
  | c :: cs => sub.isPrefixOf (c :: cs) || hasSubstrAux sub cs

/-- Does `sub` occur in `s` as a contiguous substring? -/
def hasSubstr (s sub : String) : Bool :=
  hasSubstrAux sub.data s.data

/-- Does `s` start with `pre`? -/
def strStartsWith (s pre : String) : Bool :=
  pre.data.isPrefixOf s.data

/-- Drop the first `n` characters of `s`. -/
def strDrop (s : String) (n : Nat) : String :=
  String.mk (s.data.drop n)

/-! ## GitHub listing (`getGitHubRepoList`) -/

/-- The credential blob `fmt.Sprintf("https://%s:%s@", entity, token)`
spliced into GitHub clone URLs. -/
def githubAuthPre (target : Target) : String :=
  "https://" ++ target.get "entity" ++ ":" ++ target.get "token" ++ "@"

/-- One iteration of the loop in `getGitHubRepoList`: extract `name` and
`clone_url` (dropped-ok string assertions) and replace the first
occurrence of `"https://"` in the clone URL by the credential blob. -/
def mkGitHubRepo (target : Target) (item : JsonObj) : repository :=
  { name := asGoString (jLookup item "name"),
    cloneURL :=
      goReplace1 (asGoString (jLookup item "clone_url")) "https://" (githubAuthPre target) }

/-- `getGitHubRepoList` from the point where the response body has been
decoded into `dat []map[string]interface{}`: one descriptor per item, no
error path. -/
def getGitHubRepoList (target : Target) (dat : List JsonObj) : List repository :=
  dat.map (mkGitHubRepo target)

/-! ## BitBucket listing (`getBitBucketRepoList`) -/

/-- `json.Unmarshal` into a `map[string]json.RawMessage`: the value must
be an object. -/
def toObj : Json → Option JsonObj
  | Json.obj fields => some fields
  | _ => none

/-- `json.Unmarshal` into a Go `string`: the value must be a JSON string.
Unmarshalling a `nil` message (missing key, the `none` case upstream)
also fails in Go. -/
def jStr : Json → Option String
  | Json.str s => some s
  | _ => none

/-- `json.Unmarshal` into `[]map[string]json.RawMessage`: an array of
objects. -/
def toObjArr : Json → Option (List JsonObj)
  | Json.arr elems => elems.mapM toObj
  | _ => none

/-- `json.Unmarshal` into a `map[string]string`: an object whose values
are all strings. -/
def toStrMap : Json → Option (List (String × String))
  | Json.obj fields => fields.mapM (fun p => (jStr p.2).map (fun s => (p.1, s)))
  | _ => none

/-- `json.Unmarshal` into `[]map[string]string` (the `links.clone`
array). -/
def toStrMapArr : Json → Option (List (List (String × String)))
  | Json.arr elems => elems.mapM toStrMap
  | _ => none

/-- Go map indexing `link["k"]` on a `map[string]string`: zero value `""`
when absent. -/
def lookupD (m : List (String × String)) (k : String) : String :=
  (List.lookup k m).getD ""

/-- The loop `for _, link := range cloneLinks { if link["name"] == "https"
{ cloneURL = link["href"] } }`, starting from the zero value `""`: the
`href` of the last `https`-named entry, or `""` if there is none. -/
def findHttpsURL (cloneLinks : List (List (String × String))) : String :=
  cloneLinks.foldl (fun acc link => if lookupD link "name" = "https" then lookupD link "href" else acc) ""

/-- BitBucket's unauthenticated URL head
`fmt.Sprintf("https://%s@", entity)`. -/
def bbPatOld (target : Target) : String :=
  "https://" ++ target.get "entity" ++ "@"

/-- BitBucket's credential blob
`fmt.Sprintf("https://%s:%s@", entity, password)`. -/
def bbPatNew (target : Target) : String :=
  "https://" ++ target.get "entity" ++ ":" ++ target.get "password" ++ "@"

/-- One iteration of the loop in `getBitBucketRepoList`: unmarshal the
item's `name`, `links` and `links.clone`, search the clone links for the
`https` entry, fail when the resulting URL is empty, and splice the
password into the URL. -/
def parseBitBucketItem (target : Target) (item : JsonObj) : Except String repository :=
  match (jLookup item "name").bind jStr with
  | none => Except.error "Failed to parse JSON"
  | some repoName =>
    match (jLookup item "links").bind toObj with
    | none => Except.error "Failed to parse JSON"
    | some links =>
      match (jLookup links "clone").bind toStrMapArr with
      | none => Except.error "Failed to parse JSON"
      | some cloneLinks =>
        let cloneURL := findHttpsURL cloneLinks
        if cloneURL = "" then Except.error "Could not determine HTTPS cloning URL"
        else Except.ok
          { name := repoName,
            cloneURL := goReplace1 cloneURL (bbPatOld target) (bbPatNew target) }

/-- The item loop of `getBitBucketRepoList`: a failure at any item aborts
the whole call (the Go code `return nil, ...`s out of the loop). -/
def parseBitBucketItems (target : Target) : List JsonObj → Except String (List repository)
  | [] => Except.ok []
  | item :: rest =>
    match parseBitBucketItem target item with
    | Except.error e => Except.error e
    | Except.ok r =>
      match parseBitBucketItems target rest with
      | Except.error e => Except.error e
      | Except.ok rs => Except.ok (r :: rs)

/-- `getBitBucketRepoList` from the point where the response body has
been decoded into a JSON document: unmarshal the envelope into
`metadata map[string]json.RawMessage`, its `values` entry into
`[]map[string]json.RawMessage`, then run the item loop. -/
def getBitBucketRepoList (target : Target) (payload : Json) : Except String (List repository) :=
  match toObj payload with
  | none => Except.error "Failed to parse JSON"
  | some metadata =>
    match (jLookup metadata "values").bind toObjArr with
    | none => Except.error "Failed to parse JSON"
    | some data => parseBitBucketItems target data

/-- The envelope decoding of `getBitBucketRepoList`: the decoded `values`
item list, when every decode step up to the item loop succeeds. -/
def bbValues (payload : Json) : Option (List JsonObj) :=
  (toObj payload).bind (fun metadata => (jLookup metadata "values").bind toObjArr)

/-- The clone-link decoding of one BitBucket item: its decoded
`links.clone` array, when `links` and `links.clone` unmarshal. -/
def bbCloneLinks (item : JsonObj) : Option (List (List (String × String))) :=
  ((jLookup item "links").bind toObj).bind (fun links => (jLookup links "clone").bind toStrMapArr)

/-- `Except.isOk` specialised to our result type. -/
def exceptOk {α : Type} : Except String α → Bool
  | Except.ok _ => true
  | Except.error _ => false

/-! ## Dispatch (`BackupTarget`) -/

/-- The GitHub listing request URL built by `getGitHubRepoList`. -/
def githubRequestURL (target : Target) : String :=
  "https://api.github.com/" ++ target.get "type" ++ "/" ++ target.get "entity"
    ++ "/repos?access_token=" ++ target.get "token" ++ "&per_page=200"

/-- The BitBucket listing request URL built by `getBitBucketRepoList`. -/
def bitbucketRequestURL (target : Target) : String :=
  "https://" ++ target.get "entity" ++ ":" ++ target.get "password"
    ++ "@bitbucket.org/api/2.0/repositories/" ++ target.get "entity" ++ "?page=1&pagelen=100"

/-- The observable network/error behaviour of one `BackupTarget` call:
the listing HTTP GETs it issues and the error it returns on dispatch
failure. -/
structure BackupRun where
  requests : List String
  errMsg : Option String
deriving DecidableEq

/-- The `switch target["source"]` dispatch of `BackupTarget`: the
`github` and `bitbucket` branches each issue exactly their provider's
listing request (the body of the listing work is `getGitHubRepoList` /
`getBitBucketRepoList` above); the `default` branch issues no request and
returns the error `fmt.Errorf("\"%s\" is not a recognized source type",
target["source"])`. -/
def BackupTarget (target : Target) : BackupRun :=
  if target.get "source" = "github" then
    { requests := [githubRequestURL target], errMsg := none }
  else if target.get "source" = "bitbucket" then
    { requests := [bitbucketRequestURL target], errMsg := none }
  else
    { requests := [],
      errMsg := some ("\"" ++ target.get "source" ++ "\" is not a recognized source type") }

/-! ## Filesystem paths (`path/filepath`) and sync (`backupRepository`) -/

/-- Split a character list at `/`, keeping empty components. -/
def splitSlashAux (cur : List Char) : List Char → List String
  | [] => [String.mk cur.reverse]
  | c :: cs =>
    if c = '/' then String.mk cur.reverse :: splitSlashAux [] cs
    else splitSlashAux (c :: cur) cs

/-- `strings.Split(s, "/")`. -/
def splitSlash (s : String) : List String :=
  splitSlashAux [] s.data

/-- Join path components with `/`. -/
def joinSlash : List String → String
  | [] => ""
  | [p] => p
  | p :: ps => p ++ "/" ++ joinSlash ps

/-- The element processing of Go's lexical `path.Clean`, accumulating the
surviving components in reverse: drop empty and `.` components, let `..`
pop a preceding component, keep `..` at the front of a relative path and
drop it at the root of an absolute one. -/
def cleanRev (rooted : Bool) : List String → List String → List String
  | acc, [] => acc
  | acc, p :: ps =>
    if p = "" ∨ p = "." then cleanRev rooted acc ps
    else if p = ".." then
      match acc with
      | [] => cleanRev rooted (if rooted then [] else [".."]) ps
      | a :: rest =>
        if a = ".." then cleanRev rooted (".." :: a :: rest) ps
        else cleanRev rooted rest ps
    else cleanRev rooted (p :: acc) ps

/-- Go's `filepath.Clean` on slash-separated paths. -/
def pathClean (s : String) : String :=
  if s = "" then "."
  else
    let rooted : Bool :=
      match s.data with
      | '/' :: _ => true
      | _ => false
    let cleaned := (cleanRev rooted [] (splitSlash s)).reverse
    if rooted then "/" ++ joinSlash cleaned
    else if cleaned = [] then "." else joinSlash cleaned

/-- Go's `filepath.Join`: drop empty elements, join with `/`, `Clean` the
result; all-empty input gives `""`. -/
def filepathJoin (elems : List String) : String :=
  let ne := elems.filter (fun e => e ≠ "")
  if ne = [] then "" else pathClean (joinSlash ne)

/-- Outcome of `os.Stat` on a path: success, a not-exist error
(`os.IsNotExist` true), or any other error (`os.IsNotExist` false). -/
inductive StatResult where
  | ok : StatResult
  | errNotExist : StatResult
  | errOther : StatResult
deriving DecidableEq

/-- The external `git` process run by `backupRepository`: its argument
list (after the program name) and its working directory, when one is
set. -/
structure GitCommand where
  args : List String
  dir : Option String
deriving DecidableEq

/-- `backupRepository`: join the backup directory, target name and repo
name into the clone directory; when `os.Stat` reports not-exist, run
`git clone --mirror <url> <dir>`; otherwise (stat success or any other
stat error) run `git fetch -p <url>` with the clone directory as working
directory. -/
def backupRepository (stat : String → StatResult) (targetName repoName cloneURL backupDirectory : String) : GitCommand :=
  let cloneDirectory := filepathJoin [backupDirectory, targetName, repoName]
  if stat cloneDirectory = StatResult.errNotExist then
    { args := ["clone", "--mirror", cloneURL, cloneDirectory], dir := none }
  else
    { args := ["fetch", "-p", cloneURL], dir := some cloneDirectory }

/-! ## Helper lemmas -/

theorem data_append (a b : String) : (a ++ b).data = a.data ++ b.data := by
  cases a
  cases b
  rfl

theorem isPrefixOf_append_self (l t : List Char) : l.isPrefixOf (l ++ t) = true := by
  induction l with
  | nil => simp [List.isPrefixOf]
  | cons a as ih => simp [List.isPrefixOf, ih]

theorem hasSubstrAux_of_isPrefixOf (sub l : List Char) (h : sub.isPrefixOf l = true) :
    hasSubstrAux sub l = true := by
  cases l with
  | nil =>
    cases sub with
    | nil => rfl
    | cons a as => simp [List.isPrefixOf] at h
  | cons c cs => simp [hasSubstrAux, h]

theorem hasSubstrAux_append_right (sub t : List Char) :
    ∀ pre : List Char, hasSubstrAux sub (pre ++ sub ++ t) = true := by
  intro pre
  induction pre with
  | nil =>
    exact hasSubstrAux_of_isPrefixOf sub (sub ++ t) (isPrefixOf_append_self sub t)
  | cons c cs ih =>
    show (sub.isPrefixOf (c :: (cs ++ sub ++ t)) || hasSubstrAux sub (cs ++ sub ++ t)) = true
    rw [ih]
    simp

theorem hasSubstr_sandwich (a b c : String) : hasSubstr (a ++ b ++ c) b = true := by
  show hasSubstrAux b.data (a ++ b ++ c).data = true
  rw [data_append, data_append]
  exact hasSubstrAux_append_right b.data c.data a.data

theorem strStartsWith_append (a b : String) : strStartsWith (a ++ b) a = true := by
  show a.data.isPrefixOf (a ++ b).data = true
  rw [data_append]
  exact isPrefixOf_append_self a.data b.data

theorem replaceOnceAux_not_sub (pat repl : List Char) :
    ∀ cs : List Char, hasSubstrAux pat cs = false → replaceOnceAux pat repl cs = cs := by
  intro cs
  induction cs with
  | nil =>
    intro h
    have hne : pat ≠ [] := by
      intro hp
      rw [hp] at h
      simp [hasSubstrAux] at h
    simp [replaceOnceAux, hne]
  | cons c cs ih =>
    intro h
    simp only [hasSubstrAux, Bool.or_eq_false_iff] at h
    simp [replaceOnceAux, h.1, ih h.2]

theorem goReplace1_noop (s pat repl : String) (h : hasSubstr s pat = false) :
    goReplace1 s pat repl = s := by
  cases s with
  | mk sd => exact congrArg String.mk (replaceOnceAux_not_sub pat.data repl.data sd h)

theorem goReplace1_of_startsWith (s pat repl : String) (hne : pat.data ≠ [])
    (h : strStartsWith s pat = true) :
    goReplace1 s pat repl = repl ++ strDrop s pat.length := by
  cases s with
  | mk sd =>
    cases pat with
    | mk pd =>
      cases repl with
      | mk rd =>
        show String.mk (replaceOnceAux pd rd sd) = String.mk rd ++ String.mk (sd.drop pd.length)
        have hrepl : String.mk rd ++ String.mk (sd.drop pd.length) = String.mk (rd ++ sd.drop pd.length) := rfl
        rw [hrepl]
        cases sd with
        | nil =>
          exfalso
          apply hne
          cases pd with
          | nil => rfl
          | cons p ps => simp [strStartsWith, List.isPrefixOf] at h
        | cons c cs =>
          have hpre : pd.isPrefixOf (c :: cs) = true := h
          simp [replaceOnceAux, hpre]

theorem asGoString_of_not_str (o : Option Json) (h : isStrVal o = false) : asGoString o = "" := by
  cases o with
  | none => rfl
  | some j => cases j <;> first | rfl | simp [isStrVal] at h

theorem findHttpsURL_acc (links : List (List (String × String)))
    (h : ∀ l ∈ links, lookupD l "name" ≠ "https") :
    ∀ acc : String,
      List.foldl (fun acc link => if lookupD link "name" = "https" then lookupD link "href" else acc) acc links = acc := by
  induction links with
  | nil => intro acc; rfl
  | cons l ls ih =>
    intro acc
    have hl : lookupD l "name" ≠ "https" := h l (List.mem_cons_self l ls)
    simp only [List.foldl, if_neg hl]
    exact ih (fun x hx => h x (List.mem_cons_of_mem l hx)) acc

theorem findHttpsURL_empty (links : List (List (String × String)))
    (h : ∀ l ∈ links, lookupD l "name" ≠ "https") :
    findHttpsURL links = "" :=
  findHttpsURL_acc links h ""

theorem parseBitBucketItems_err_of_mem (target : Target) (data : List JsonObj) (item : JsonObj)
    (hmem : item ∈ data) (herr : exceptOk (parseBitBucketItem target item) = false) :
    exceptOk (parseBitBucketItems target data) = false := by
  induction data with
  | nil => cases hmem
  | cons hd tl ih =>
    rcases List.mem_cons.mp hmem with heq | htl
    · subst heq
      cases hp : parseBitBucketItem target item with
      | error e => simp [parseBitBucketItems, hp, exceptOk]
      | ok r => rw [hp] at herr; simp [exceptOk] at herr
    · cases hp : parseBitBucketItem target hd with
      | error e => simp [parseBitBucketItems, hp, exceptOk]
      | ok r =>
        have hrest := ih htl
        cases hq : parseBitBucketItems target tl with
        | error e => simp [parseBitBucketItems, hp, hq, exceptOk]
        | ok rs => rw [hq] at hrest; simp [exceptOk] at hrest

theorem parseBitBucketItems_ok_length (target : Target) (data : List JsonObj) (rs : List repository)
    (h : parseBitBucketItems target data = Except.ok rs) : rs.length = data.length := by
  induction data generalizing rs with
  | nil =>
    simp only [parseBitBucketItems] at h
    cases h
    rfl
  | cons hd tl ih =>
    simp only [parseBitBucketItems] at h
    cases hp : parseBitBucketItem target hd with
    | error e => rw [hp] at h; cases h
    | ok r =>
      rw [hp] at h
      cases hq : parseBitBucketItems target tl with
      | error e => rw [hq] at h; cases h
      | ok rs' =>
        rw [hq] at h
        cases h
        simp [ih rs' hq]

theorem parseBitBucketItem_err_of_no_https (target : Target) (item : JsonObj)
    (links : List (List (String × String)))
    (hlinks : bbCloneLinks item = some links)
    (hnone : ∀ l ∈ links, lookupD l "name" ≠ "https") :
    exceptOk (parseBitBucketItem target item) = false := by
  unfold parseBitBucketItem
  cases hname : (jLookup item "name").bind jStr with
  | none => simp [exceptOk]
  | some repoName =>
    rcases Option.bind_eq_some.mp hlinks with ⟨lo, hlo, hcl⟩
    have hurl : findHttpsURL links = "" := findHttpsURL_empty links hnone
    simp [hlo, hcl, hurl, exceptOk]

theorem getBitBucketRepoList_eq_items (target : Target) (payload : Json) (vals : List JsonObj)
    (hvals : bbValues payload = some vals) :
    getBitBucketRepoList target payload = parseBitBucketItems target vals := by
  rcases Option.bind_eq_some.mp hvals with ⟨metadata, hmd, hv⟩
  unfold getBitBucketRepoList
  simp [hmd, hv]

/-! ## Concrete fixtures from the spec's scenarios -/

/-- The github scenario target `{name: "acme", source: "github", type:
"orgs", entity: "acme-co", token: "T"}`. -/
def acmeTarget : Target :=
  [("name", "acme"), ("source", "github"), ("type", "orgs"), ("entity", "acme-co"), ("token", "T")]

/-- The github scenario listing item
`{name: "infra", clone_url: "https://github.com/acme-co/infra.git"}`. -/
def infraItem : JsonObj :=
  [("name", Json.str "infra"), ("clone_url", Json.str "https://github.com/acme-co/infra.git")]

/-- The bitbucket scenario target `{name: "bb1", source: "bitbucket",
entity: "bbuser", password: "P"}`. -/
def bbTarget : Target :=
  [("name", "bb1"), ("source", "bitbucket"), ("entity", "bbuser"), ("password", "P")]

/-- The bitbucket scenario item for repository `repoX`. -/
def repoXItem : JsonObj :=
  [("name", Json.str "repoX"),
   ("links", Json.obj [("clone", Json.arr [Json.obj
     [("name", Json.str "https"),
      ("href", Json.str "https://bbuser@bitbucket.org/bbuser/repoX.git")]])])]

/-- The bitbucket scenario listing payload: an envelope whose `values`
array holds the single `repoX` item. -/
def bbPayload : Json :=
  Json.obj [("values", Json.arr [Json.obj repoXItem])]

/-- A bitbucket item whose `links.clone` array has no `https`-named
entry. -/
def sshOnlyItem : JsonObj :=
  [("name", Json.str "repoY"),
   ("links", Json.obj [("clone", Json.arr [Json.obj
     [("name", Json.str "ssh"),
      ("href", Json.str "ssh://git@bitbucket.org/bbuser/repoY.git")]])])]

/-- A payload whose `values` array holds a fully valid item followed by
the `https`-less item. -/
def bbMixedPayload : Json :=
  Json.obj [("values", Json.arr [Json.obj repoXItem, Json.obj sshOnlyItem])]

/-! ## Claim theorems -/

/-- Claim C1: in `backupRepository`, when `os.Stat` on the local mirror
path (the `filepath.Join` of the backup directory, target name and repo
name) reports not-exist, the sync runs a full mirror clone
(`git clone --mirror <url> <path>`); in every other stat outcome it runs
a pruning fetch (`git fetch -p <url>`) with the path as working
directory, so an existing mirror is never re-cloned. -/
theorem sync_clone_or_fetch (stat : String → StatResult)
    (targetName repoName cloneURL backupDirectory : String) :
    (stat (filepathJoin [backupDirectory, targetName, repoName]) = StatResult.errNotExist →
      backupRepository stat targetName repoName cloneURL backupDirectory =
        { args := ["clone", "--mirror", cloneURL, filepathJoin [backupDirectory, targetName, repoName]],
          dir := none }) ∧
    (stat (filepathJoin [backupDirectory, targetName, repoName]) ≠ StatResult.errNotExist →
      backupRepository stat targetName repoName cloneURL backupDirectory =
        { args := ["fetch", "-p", cloneURL],
          dir := some (filepathJoin [backupDirectory, targetName, repoName]) }) := by
  constructor
  · intro h
    simp [backupRepository, h]
  · intro h
    simp [backupRepository, h]

/-- Witness for C1: the spec's two-run scenario at
`/backups/acme/infra` — a first run against a missing path clones, a
second run against the existing path fetches. -/
theorem sync_clone_or_fetch_witness :
    backupRepository (fun _ => StatResult.errNotExist) "acme" "infra" "u" "/backups" =
      { args := ["clone", "--mirror", "u", "/backups/acme/infra"], dir := none } ∧
    backupRepository (fun _ => StatResult.ok) "acme" "infra" "u" "/backups" =
      { args := ["fetch", "-p", "u"], dir := some "/backups/acme/infra" } := by
  constructor
  · exact ((sync_clone_or_fetch (fun _ => StatResult.errNotExist) "acme" "infra" "u" "/backups").1
      rfl).trans (by decide)
  · exact ((sync_clone_or_fetch (fun _ => StatResult.ok) "acme" "infra" "u" "/backups").2
      (by decide)).trans (by decide)

/-- Claim C10: the presence decision of `backupRepository` is
`os.IsNotExist(err)`, not "the path exists": a stat failure other than
not-exist (e.g. a permission error) takes the fetch branch. -/
theorem stat_error_takes_fetch (stat : String → StatResult)
    (targetName repoName cloneURL backupDirectory : String)
    (h : stat (filepathJoin [backupDirectory, targetName, repoName]) = StatResult.errOther) :
    backupRepository stat targetName repoName cloneURL backupDirectory =
      { args := ["fetch", "-p", cloneURL],
        dir := some (filepathJoin [backupDirectory, targetName, repoName]) } := by
  have hne : stat (filepathJoin [backupDirectory, targetName, repoName]) ≠ StatResult.errNotExist := by
    rw [h]
    decide
  simp [backupRepository, hne]

/-- Witness for C10: a filesystem whose stat always fails with a
non-not-exist error still yields the fetch invocation. -/
theorem stat_error_takes_fetch_witness :
    backupRepository (fun _ => StatResult.errOther) "acme" "infra" "u" "/backups" =
      { args := ["fetch", "-p", "u"], dir := some "/backups/acme/infra" } :=
  (stat_error_takes_fetch (fun _ => StatResult.errOther) "acme" "infra" "u" "/backups" rfl).trans
    (by decide)

/-- Claim C4 (evaluation at the failing input): a repository name
containing the traversal sequence `..` is joined verbatim into the
mirror path, and `filepath.Join`'s lexical cleaning resolves it to
`/etc`, outside the `/backups` root — the name is neither rejected nor
neutralized. -/
theorem repo_name_traversal_escapes :
    backupRepository (fun _ => StatResult.errNotExist) "acme" "../../etc" "u" "/backups" =
      { args := ["clone", "--mirror", "u", "/etc"], dir := none } ∧
    strStartsWith "/etc" "/backups" = false := by
  decide

/-- Claim C7: the `default` branch of `BackupTarget`'s source dispatch
issues no listing request and returns the error
`"<source>" is not a recognized source type`, whose message contains the
offending source value. -/
theorem unrecognized_source_no_request (target : Target)
    (h1 : target.get "source" ≠ "github") (h2 : target.get "source" ≠ "bitbucket") :
    (BackupTarget target).requests = [] ∧
    (BackupTarget target).errMsg =
      some ("\"" ++ target.get "source" ++ "\" is not a recognized source type") ∧
    hasSubstr ("\"" ++ target.get "source" ++ "\" is not a recognized source type")
      (target.get "source") = true := by
  refine ⟨?_, ?_, ?_⟩
  · simp [BackupTarget, h1, h2]
  · simp [BackupTarget, h1, h2]
  · exact hasSubstr_sandwich "\"" (target.get "source") "\" is not a recognized source type"

/-- Witness for C7: the unregistered source value `gitlab`. -/
theorem unrecognized_source_no_request_witness :
    (BackupTarget [("source", "gitlab")]).requests = [] ∧
    (BackupTarget [("source", "gitlab")]).errMsg =
      some "\"gitlab\" is not a recognized source type" ∧
    hasSubstr "\"gitlab\" is not a recognized source type" "gitlab" = true := by
  have h := unrecognized_source_no_request [("source", "gitlab")] (by decide) (by decide)
  exact ⟨h.1, h.2.1.trans (by decide), (by decide : Target.get [("source", "gitlab")] "source" = "gitlab") ▸ h.2.2⟩

/-- Claim C9: the spec's bitbucket scenario — target `bb1` with entity
`bbuser` and password `P`, payload with the single `repoX` item — yields
exactly one descriptor, named `repoX`, with the password spliced into
the clone URL. -/
theorem bitbucket_scenario :
    getBitBucketRepoList bbTarget bbPayload =
      Except.ok [{ name := "repoX", cloneURL := "https://bbuser:P@bitbucket.org/bbuser/repoX.git" }] := by
  rfl

/-- A payload whose `values` array holds a valid item followed by an
item whose `name` is not a JSON string. -/
def bbBadNamePayload : Json :=
  Json.obj [("values", Json.arr [Json.obj repoXItem, Json.obj [("name", Json.num 7)]])]

/-- Claim C3: a bitbucket listing item whose decoded `links.clone` array
contains no entry named `https` makes the whole listing call fail: the
result is an error, not a (possibly partial) descriptor list. -/
theorem bitbucket_missing_https_fails (target : Target) (payload : Json)
    (vals : List JsonObj) (item : JsonObj) (links : List (List (String × String)))
    (hvals : bbValues payload = some vals)
    (hmem : item ∈ vals)
    (hlinks : bbCloneLinks item = some links)
    (hnone : ∀ l ∈ links, lookupD l "name" ≠ "https") :
    exceptOk (getBitBucketRepoList target payload) = false := by
  rw [getBitBucketRepoList_eq_items target payload vals hvals]
  exact parseBitBucketItems_err_of_mem target vals item hmem
    (parseBitBucketItem_err_of_no_https target item links hlinks hnone)

/-- Witness for C3: a payload whose second item offers only an
`ssh`-named clone link; the whole call errors. -/
theorem bitbucket_missing_https_fails_witness :
    exceptOk (getBitBucketRepoList bbTarget bbMixedPayload) = false :=
  bitbucket_missing_https_fails bbTarget bbMixedPayload [repoXItem, sshOnlyItem] sshOnlyItem
    [[("name", "ssh"), ("href", "ssh://git@bitbucket.org/bbuser/repoY.git")]]
    rfl
    (List.mem_cons_of_mem repoXItem (List.mem_cons_self sshOnlyItem []))
    rfl
    (by decide)

/-- Claim C8: the bitbucket listing never returns a partial list — a
successful call returns one descriptor per decoded item, and a failure
at any item makes the whole call error, discarding descriptors already
extracted from earlier items. -/
theorem bitbucket_no_partial_list (target : Target) (payload : Json) (vals : List JsonObj)
    (hvals : bbValues payload = some vals) :
    (∀ rs, getBitBucketRepoList target payload = Except.ok rs → rs.length = vals.length) ∧
    (∀ item ∈ vals, ∀ e, parseBitBucketItem target item = Except.error e →
      exceptOk (getBitBucketRepoList target payload) = false) := by
  constructor
  · intro rs h
    rw [getBitBucketRepoList_eq_items target payload vals hvals] at h
    exact parseBitBucketItems_ok_length target vals rs h
  · intro item hmem e herr
    rw [getBitBucketRepoList_eq_items target payload vals hvals]
    exact parseBitBucketItems_err_of_mem target vals item hmem (by rw [herr]; rfl)

/-- Witness for C8: the scenario payload gives exactly one descriptor
for its one item, and a payload whose second item has a non-string
`name` makes the whole call error even though its first item is
valid. -/
theorem bitbucket_no_partial_list_witness :
    ([{ name := "repoX", cloneURL := "https://bbuser:P@bitbucket.org/bbuser/repoX.git" }] : List repository).length
      = ([repoXItem] : List JsonObj).length ∧
    exceptOk (getBitBucketRepoList bbTarget bbBadNamePayload) = false := by
  constructor
  · exact (bitbucket_no_partial_list bbTarget bbPayload [repoXItem] rfl).1 _ rfl
  · exact (bitbucket_no_partial_list bbTarget bbBadNamePayload [repoXItem, [("name", Json.num 7)]] rfl).2
      [("name", Json.num 7)]
      (List.mem_cons_of_mem repoXItem (List.mem_cons_self [("name", Json.num 7)] []))
      "Failed to parse JSON" rfl

/-- Claim C6: a decoded github listing produces exactly one descriptor
per item and never fails; an item whose `name` or `clone_url` is absent
or not a string contributes the empty string for that field. -/
theorem github_optional_fields (target : Target) (dat : List JsonObj) (item : JsonObj) :
    (getGitHubRepoList target dat).length = dat.length ∧
    (isStrVal (jLookup item "name") = false → (mkGitHubRepo target item).name = "") ∧
    (isStrVal (jLookup item "clone_url") = false → (mkGitHubRepo target item).cloneURL = "") := by
  refine ⟨List.length_map dat (mkGitHubRepo target), ?_, ?_⟩
  · intro h
    exact asGoString_of_not_str _ h
  · intro h
    show goReplace1 (asGoString (jLookup item "clone_url")) "https://" (githubAuthPre target) = ""
    rw [asGoString_of_not_str _ h]
    exact goReplace1_noop "" "https://" (githubAuthPre target) (by decide)

/-- Witness for C6: an item with a numeric `name` and no `clone_url`
yields the empty-string descriptor, and a one-item listing has length
one. -/
theorem github_optional_fields_witness :
    (getGitHubRepoList acmeTarget [[("name", Json.num 3)]]).length = 1 ∧
    (mkGitHubRepo acmeTarget [("name", Json.num 3)]).name = "" ∧
    (mkGitHubRepo acmeTarget [("name", Json.num 3)]).cloneURL = "" := by
  have h := github_optional_fields acmeTarget [[("name", Json.num 3)]] [("name", Json.num 3)]
  exact ⟨h.1, h.2.1 (by decide), h.2.2 (by decide)⟩

/-- Counterexample to claim C2 as stated: the empty listing item is a
valid github payload item (both fields optional), yet its descriptor's
clone URL is `""`, which does not begin with
`https://acme-co:T@`; and for an item whose clone URL contains
`https://` twice, the part of the resulting URL after the spliced
credentials still contains a literal `https://`. -/
theorem github_listing_claim_refuted :
    strStartsWith (mkGitHubRepo acmeTarget []).cloneURL "https://acme-co:T@" = false ∧
    getGitHubRepoList acmeTarget [[]] = [{ name := "", cloneURL := "" }] ∧
    hasSubstr
      (strDrop (mkGitHubRepo acmeTarget [("clone_url", Json.str "https://a/https://b")]).cloneURL 18)
      "https://" = true := by
  refine ⟨by decide, rfl, by decide⟩

/-- Claim C2 (amended): for github items whose `clone_url` begins with
`https://`, the descriptor's URL is exactly
`https://<entity>:<token>@` followed by the rest of `clone_url`, hence
begins with the authenticated prefix (only the first occurrence of
`https://` is rewritten); and the spec's `acme`/`infra` scenario yields
`https://acme-co:T@github.com/acme-co/infra.git`. -/
theorem github_listing_auth_url (target : Target) (dat : List JsonObj) (item : JsonObj) :
    (strStartsWith (asGoString (jLookup item "clone_url")) "https://" = true →
      (mkGitHubRepo target item).cloneURL =
        githubAuthPre target ++ strDrop (asGoString (jLookup item "clone_url")) 8) ∧
    ((∀ it ∈ dat, strStartsWith (asGoString (jLookup it "clone_url")) "https://" = true) →
      ∀ r ∈ getGitHubRepoList target dat, strStartsWith r.cloneURL (githubAuthPre target) = true) ∧
    getGitHubRepoList acmeTarget [infraItem] =
      [{ name := "infra", cloneURL := "https://acme-co:T@github.com/acme-co/infra.git" }] := by
  have key : ∀ it : JsonObj,
      strStartsWith (asGoString (jLookup it "clone_url")) "https://" = true →
      (mkGitHubRepo target it).cloneURL =
        githubAuthPre target ++ strDrop (asGoString (jLookup it "clone_url")) 8 := by
    intro it h
    show goReplace1 (asGoString (jLookup it "clone_url")) "https://" (githubAuthPre target) = _
    rw [goReplace1_of_startsWith _ _ _ (by decide) h]
    rfl
  refine ⟨key item, ?_, rfl⟩
  intro hall r hr
  simp only [getGitHubRepoList] at hr
  rcases List.mem_map.mp hr with ⟨it, hit, rfl⟩
  rw [key it (hall it hit)]
  exact strStartsWith_append (githubAuthPre target) _

/-- Witness for the amended C2 at the spec's scenario item. -/
theorem github_listing_auth_url_witness :
    (mkGitHubRepo acmeTarget infraItem).cloneURL =
      githubAuthPre acmeTarget ++ strDrop (asGoString (jLookup infraItem "clone_url")) 8 ∧
    strStartsWith (mkGitHubRepo acmeTarget infraItem).cloneURL (githubAuthPre acmeTarget) = true := by
  have h := github_listing_auth_url acmeTarget [infraItem] infraItem
  refine ⟨h.1 (by decide), ?_⟩
  refine h.2.1 ?_ (mkGitHubRepo acmeTarget infraItem) ?_
  · intro it hit
    rw [List.mem_singleton] at hit
    subst hit
    decide
  · exact List.mem_map_of_mem (mkGitHubRepo acmeTarget) (List.mem_singleton.mpr rfl)

/-- Counterexample to claim C5 as stated: `strings.Replace` is
occurrence-based, not prefix-anchored — a github clone URL that does not
begin with `https://` but contains it (`git+https://...`) is changed,
not returned unchanged. -/
theorem credential_splice_claim_refuted :
    strStartsWith "git+https://github.com/x.git" "https://" = false ∧
    (mkGitHubRepo acmeTarget [("clone_url", Json.str "git+https://github.com/x.git")]).cloneURL =
      "git+https://acme-co:T@github.com/x.git" ∧
    ("git+https://acme-co:T@github.com/x.git" : String) ≠ "git+https://github.com/x.git" := by
  decide

/-- Claim C5 (amended): for both providers the credential substitution
silently no-ops — returning the URL unchanged — exactly when the URL
does not contain the expected unauthenticated pattern (`https://` for
github, `https://<entity>@` for bitbucket) anywhere as a substring; when
the pattern does occur, its first occurrence is replaced, wherever it
is. -/
theorem credential_splice_noop (target : Target) (item bitem : JsonObj) (nm : String)
    (links : List (List (String × String))) :
    (hasSubstr (asGoString (jLookup item "clone_url")) "https://" = false →
      (mkGitHubRepo target item).cloneURL = asGoString (jLookup item "clone_url")) ∧
    ((jLookup bitem "name").bind jStr = some nm →
      bbCloneLinks bitem = some links →
      findHttpsURL links ≠ "" →
      hasSubstr (findHttpsURL links) (bbPatOld target) = false →
      parseBitBucketItem target bitem = Except.ok { name := nm, cloneURL := findHttpsURL links }) := by
  constructor
  · intro h
    exact goReplace1_noop _ _ _ h
  · intro hname hlinks hurl hsub
    rcases Option.bind_eq_some.mp hlinks with ⟨lo, hlo, hcl⟩
    unfold parseBitBucketItem
    simp only [hname, hlo, hcl, if_neg hurl]
    rw [goReplace1_noop _ _ _ hsub]

/-- A bitbucket item whose `https` clone link does not embed the
target's entity, so the bitbucket pattern does not occur in it. -/
def otherHostItem : JsonObj :=
  [("name", Json.str "repoZ"),
   ("links", Json.obj [("clone", Json.arr [Json.obj
     [("name", Json.str "https"), ("href", Json.str "https://other@host/x.git")]])])]

/-- Witness for the amended C5: an `ssh://` github clone URL passes
through unchanged, and a bitbucket `https` link lacking
`https://bbuser@` passes through unchanged. -/
theorem credential_splice_noop_witness :
    (mkGitHubRepo acmeTarget [("clone_url", Json.str "ssh://host/x.git")]).cloneURL =
      "ssh://host/x.git" ∧
    parseBitBucketItem bbTarget otherHostItem =
      Except.ok { name := "repoZ", cloneURL := "https://other@host/x.git" } := by
  constructor
  · exact (credential_splice_noop acmeTarget [("clone_url", Json.str "ssh://host/x.git")] [] "" []).1
      (by decide)
  · exact ((credential_splice_noop bbTarget [] otherHostItem "repoZ"
      [[("name", "https"), ("href", "https://other@host/x.git")]]).2
      rfl rfl (by decide) (by decide)).trans (by rfl)

end GitBackup
